/-
Verification of the metrics-aggregation component of the csv_agent repository
(`pg_aggregate_node.py` and its dynamic-table variant `mockup/pg_aggregate_node.py`).

The database is modelled as an in-memory table of article rows; each SQL query
of the source is translated into a Lean function over that table, and the
`aggregate` state-transition function is translated with an explicit failure
parameter per query (modelling the per-query `try/except` blocks: `some msg`
means that query raised an exception with text `msg`).
-/
import Mathlib

namespace CsvAgent

/-! ## Stable sorting by a boolean "less or equal" key comparison

Python's `list.sort(key=...)` and SQL `ORDER BY` are modelled by a stable
insertion sort parameterised by a boolean total preorder `le`. -/

def insertLe {α : Type} (le : α → α → Bool) (a : α) : List α → List α
  | [] => [a]
  | b :: l => if le a b then a :: b :: l else b :: insertLe le a l

def sortLe {α : Type} (le : α → α → Bool) : List α → List α
  | [] => []
  | b :: l => insertLe le b (sortLe le l)

/-! ## Data model

One row of the `articles` table (`pg_articles_util.py` schema: `Month VARCHAR`,
`Year INT`, impact columns numeric, all nullable).  The numeric impact columns
are dynamic, so a row carries a map from (lowercased) column name to the
optional numeric value stored there. -/

structure Row where
  articleid : Int
  month : Option String
  year : Option Int
  spokespersonname : Option String
  issue : Option String
  impact : String → Option ℚ

/-- A table: its schema column names (as returned lowercased by the
`information_schema.columns` query) and its rows. -/
structure Table where
  schemaCols : List String
  rows : List Row

/-! ## The fixed configuration of `pg_aggregate_node.py` -/

def IMPACT_COLUMNS_PRIORITY : List String :=
  ["kpmgtotalimpact", "pwctotalimpact", "deloittetotalimpact", "eytotalimpact"]

/-- Lookup `CANONICAL_IMPACT_NAMES.get(impact_col, impact_col)`. -/
def canonicalImpactName (c : String) : String :=
  match c with
  | "kpmgtotalimpact" => "KPMGTotalImpact"
  | "pwctotalimpact" => "PwCTotalImpact"
  | "deloittetotalimpact" => "DeloitteTotalImpact"
  | "eytotalimpact" => "EYTotalImpact"
  | _ => c

/-! ## `_detect_impact_column` -/

/-- Python `c.endswith("totalimpact")`, evaluated on the character list. -/
def strEndsWith (s suffix : String) : Bool :=
  List.isSuffixOf suffix.toList s.toList

/-- One step of the dynamic-discovery loop
`for c in cols: if c.endswith("totalimpact") and c not in candidates: candidates.append(c)`. -/
def candStep (cand : List String) (c : String) : List String :=
  if strEndsWith c "totalimpact" && !(cand.contains c) then cand ++ [c] else cand

/-- The candidate list built by `_detect_impact_column`: the known priority
columns present in the schema, then every further column ending in
`totalimpact`, appended in schema order when not already a candidate. -/
def candidatesOf (cols : List String) : List String :=
  cols.foldl candStep (IMPACT_COLUMNS_PRIORITY.filter (fun c => decide (c ∈ cols)))

/-- Python `IMPACT_COLUMNS_PRIORITY.index(x[0]) if x[0] in IMPACT_COLUMNS_PRIORITY
else 999`. -/
def prioIdx (c : String) : Nat :=
  if c ∈ IMPACT_COLUMNS_PRIORITY then IMPACT_COLUMNS_PRIORITY.indexOf c else 999

/-- Sort key used by `_detect_impact_column`: `(-count, priority index or 999)`. -/
def detectKey (p : String × Nat) : Int × Nat :=
  (-(p.2 : Int), prioIdx p.1)

/-- Lexicographic comparison of sort keys (Python tuple `<=`). -/
def detectLe (p q : String × Nat) : Bool :=
  decide ((detectKey p).1 < (detectKey q).1) ||
    (decide ((detectKey p).1 = (detectKey q).1) && decide ((detectKey p).2 ≤ (detectKey q).2))

/-- The per-candidate count pairs (`counts` in the source). -/
def countsOf (cols : List String) (cnt : String → Nat) : List (String × Nat) :=
  (candidatesOf cols).map fun c => (c, cnt c)

/-- Python `non_zero = [c for c in counts if c[1] > 0] or counts`. -/
def nonZeroOf (cols : List String) (cnt : String → Nat) : List (String × Nat) :=
  let nz := (countsOf cols cnt).filter fun p => decide (0 < p.2)
  if nz.isEmpty then countsOf cols cnt else nz

/-- The function `_detect_impact_column`.  Here `cnt col` is the result of the per-column
`SELECT COUNT(*) ... WHERE col IS NOT NULL AND TRIM(col::text) <> ''` query
(the surrounding `try/except` makes it `0` when that query fails). -/
def detect_impact_column (cols : List String) (cnt : String → Nat) : Option String :=
  if (candidatesOf cols).isEmpty then
    none
  else
    ((sortLe detectLe (nonZeroOf cols cnt)).head?).map Prod.fst

/-! ## The individual SQL queries of `pg_aggregate_node.py`

`GROUP BY` output order is unspecified by SQL, so grouped queries enumerate the
distinct keys in first-occurrence order; every claim proved about them is
independent of that choice.  `ORDER BY` is modelled with `sortLe`. -/

/-- Distinct elements of a list, keeping first occurrences in order
(the set of group keys produced by a `GROUP BY`). -/
def distinctFirst {α : Type} [BEq α] (l : List α) : List α :=
  l.foldl (fun acc a => if acc.contains a then acc else acc ++ [a]) []

/-- Query `SELECT COUNT(*) FROM articles`. -/
def totalArticlesQ (t : Table) : Nat := t.rows.length

/-- Record stored under `top_spokesperson`. -/
structure TopSpokes where
  spokespersonname : String
  article_count : Nat
deriving DecidableEq

/-- Non-null, non-empty spokesperson names, one per row. -/
def spokesNames (t : Table) : List String :=
  t.rows.filterMap fun r =>
    match r.spokespersonname with
    | some s => if s = "" then none else some s
    | none => none

/-- Query `SELECT spokespersonname, COUNT(*) ... GROUP BY ... ORDER BY c DESC LIMIT 1`.
Ties are broken by database iteration order (here: first-occurrence order,
which the stable sort preserves). -/
def topSpokespersonQ (t : Table) : Option TopSpokes :=
  let grouped := (distinctFirst (spokesNames t)).map fun s => (s, (spokesNames t).count s)
  ((sortLe (fun a b => decide (b.2 ≤ a.2)) grouped).head?).map fun p => ⟨p.1, p.2⟩

/-- The `CASE month WHEN 'Jan' THEN 1 ... ELSE 13 END` mapping; a NULL month
matches no `WHEN` branch and gets the `ELSE` value 13. -/
def monthIndex (m : Option String) : Nat :=
  match m with
  | some "Jan" => 1
  | some "Feb" => 2
  | some "Mar" => 3
  | some "Apr" => 4
  | some "May" => 5
  | some "Jun" => 6
  | some "Jul" => 7
  | some "Aug" => 8
  | some "Sep" => 9
  | some "Oct" => 10
  | some "Nov" => 11
  | some "Dec" => 12
  | _ => 13

/-- Postgres `ORDER BY year` ascending: NULL years sort last. -/
def yearLt (a b : Option Int) : Bool :=
  match a, b with
  | some x, some y => decide (x < y)
  | some _, none => true
  | none, _ => false

/-- Comparison of `(month, year)` group keys: `ORDER BY year, MIN(CASE month ...)`. -/
def monthlyLe (a b : (Option String × Option Int) × Nat) : Bool :=
  yearLt a.1.2 b.1.2 ||
    (decide (a.1.2 = b.1.2) && decide (monthIndex a.1.1 ≤ monthIndex b.1.1))

/-- One entry of `monthly_counts`. -/
structure MonthlyCount where
  month : Option String
  year : Option Int
  count : Nat
deriving DecidableEq

/-- Query `SELECT month, year, COUNT(*) FROM articles GROUP BY month, year ORDER BY year,
MIN(CASE month ... END)`.  Within a group the `CASE` value is constant, so its
`MIN` is `monthIndex` of the group's month. -/
def monthlyCountsQ (t : Table) : List MonthlyCount :=
  let keys := distinctFirst (t.rows.map fun r => (r.month, r.year))
  let groups := keys.map fun k =>
    (k, (t.rows.filter fun r => decide ((r.month, r.year) = k)).length)
  (sortLe monthlyLe groups).map fun kc => ⟨kc.1.1, kc.1.2, kc.2⟩

/-- Query `SELECT COUNT(*) FROM articles WHERE col IS NOT NULL AND TRIM(col::text) <> ''`.
The impact columns are numeric, so a non-null value never renders as a blank
string and the condition is equivalent to `IS NOT NULL`. -/
def nonNullCountQ (col : String) (t : Table) : Nat :=
  (t.rows.filter fun r => (r.impact col).isSome).length

/-- The non-null values of an impact column, in row order. -/
def impactVals (col : String) (t : Table) : List ℚ :=
  t.rows.filterMap fun r => r.impact col

/-- Query `SELECT AVG(col) FROM articles WHERE col IS NOT NULL`; `AVG` of no rows is
NULL, which `aggregate` stores as an explicit null. -/
def avgImpactQ (col : String) (t : Table) : Option ℚ :=
  let vs := impactVals col t
  if vs.isEmpty then none else some (vs.sum / (vs.length : ℚ))

/-- Record stored under `max_impact`. -/
structure MaxImpact where
  articleid : Int
  impact : Option ℚ
  issue : Option String
  spokespersonname : Option String
deriving DecidableEq

/-- Query `SELECT articleid, col, issue, spokespersonname FROM articles WHERE col IS NOT
NULL ORDER BY col DESC NULLS LAST LIMIT 1` (all remaining rows are non-null,
ties broken by database iteration order). -/
def maxImpactQ (col : String) (t : Table) : Option MaxImpact :=
  let rs := t.rows.filter fun r => (r.impact col).isSome
  let sorted := sortLe
    (fun a b => decide (((b.impact col).getD 0) ≤ ((a.impact col).getD 0))) rs
  (sorted.head?).map fun r => ⟨r.articleid, r.impact col, r.issue, r.spokespersonname⟩

/-- The `CASE` bucketing expression of the distribution query. -/
def bucketOf (v : Option ℚ) : String :=
  match v with
  | none => "null"
  | some x => if x < 1 then "0_1" else if x < 3 then "1_3" else if x < 6 then "3_6" else "6_10"

/-- Every value the `CASE` expression can produce. -/
def ALL_BUCKETS : List String := ["null", "0_1", "1_3", "3_6", "6_10"]

/-- Number of rows falling into bucket `b` for column `col`. -/
def bucketCount (col : String) (t : Table) (b : String) : Nat :=
  (t.rows.map fun r => bucketOf (r.impact col)).count b

/-- The rows returned by `SELECT bucket, COUNT(*) FROM (...) t GROUP BY bucket`:
one row per bucket that actually occurs (order is immaterial to every claim). -/
def sqlBuckets (col : String) (t : Table) : List (String × Nat) :=
  (ALL_BUCKETS.filter fun b => decide (0 < bucketCount col t b)).map
    fun b => (b, bucketCount col t b)

/-- Assignment `results["impact_distribution"] = {b: int(c) for b, c in rows if b != 'null'}` —
the primary aggregator drops the `'null'` bucket. -/
def impactDistributionQ (col : String) (t : Table) : List (String × Nat) :=
  (sqlBuckets col t).filter fun p => decide (p.1 ≠ "null")

/-! ## The `aggregate` state transition of `pg_aggregate_node.py`

Each query sits in its own `try/except`; the `Fail` record injects those
exceptions: `some msg` means the query raised an exception whose text is
`msg`, `none` means it succeeded.  A key of the Python `results` dict is
modelled as an `Option` field (`none` = key absent); keys that Python can set
to `None` get type `Option (Option _)` (`some none` = key present, null). -/

structure Fail where
  total_articles : Option String
  top_spokesperson : Option String
  monthly_counts : Option String
  detect : Option String
  avg_impact : Option String
  max_impact : Option String
  impact_distribution : Option String
deriving DecidableEq

/-- All queries succeed. -/
def noFail : Fail := ⟨none, none, none, none, none, none, none⟩

/-- The `results` dict of `aggregate`. -/
structure Aggregates where
  total_articles : Option Nat
  top_spokesperson : Option TopSpokes
  monthly_counts : Option (List MonthlyCount)
  company_impact_field : Option (Option String)
  avg_impact : Option (Option ℚ)
  avg_kpmg_impact : Option (Option ℚ)
  max_impact : Option MaxImpact
  impact_distribution : Option (List (String × Nat))
deriving DecidableEq

/-- Initial `results = {}`. -/
def Aggregates.empty : Aggregates := ⟨none, none, none, none, none, none, none, none⟩

/-- The `GraphState` TypedDict (the fields `aggregate` touches). -/
structure GraphState where
  aggregates : Option Aggregates
  errors : List String
deriving DecidableEq

/-- The `for key, q in GENERIC_QUERIES.items()` loop: `total_articles`,
`top_spokesperson`, `monthly_counts`, in dict insertion order; each failure
appends one error and leaves its key unset. -/
def runGenericQueries (f : Fail) (t : Table) (r : Aggregates) (errs : List String) :
    Aggregates × List String :=
  let s1 : Aggregates × List String :=
    match f.total_articles with
    | some e => (r, errs ++ ["aggregate total_articles: " ++ e])
    | none => ({ r with total_articles := some (totalArticlesQ t) }, errs)
  let s2 : Aggregates × List String :=
    match f.top_spokesperson with
    | some e => (s1.1, s1.2 ++ ["aggregate top_spokesperson: " ++ e])
    | none => ({ s1.1 with top_spokesperson := topSpokespersonQ t }, s1.2)
  match f.monthly_counts with
  | some e => (s2.1, s2.2 ++ ["aggregate monthly_counts: " ++ e])
  | none => ({ s2.1 with monthly_counts := some (monthlyCountsQ t) }, s2.2)

/-- The `if impact_col:` block: average (plus the extra `avg_kpmg_impact` key
when the selected column is `kpmgtotalimpact`), max row, distribution. -/
def runImpactQueries (f : Fail) (t : Table) (col : String) (r : Aggregates)
    (errs : List String) : Aggregates × List String :=
  let s1 : Aggregates × List String :=
    match f.avg_impact with
    | some e => (r, errs ++ ["aggregate avg_impact: " ++ e])
    | none =>
        let av := avgImpactQ col t
        let r1 := { r with avg_impact := some av }
        if col = "kpmgtotalimpact" then ({ r1 with avg_kpmg_impact := some av }, errs)
        else (r1, errs)
  let s2 : Aggregates × List String :=
    match f.max_impact with
    | some e => (s1.1, s1.2 ++ ["aggregate max_impact: " ++ e])
    | none => ({ s1.1 with max_impact := maxImpactQ col t }, s1.2)
  match f.impact_distribution with
  | some e => (s2.1, s2.2 ++ ["aggregate impact_distribution: " ++ e])
  | none => ({ s2.1 with impact_distribution := some (impactDistributionQ col t) }, s2.2)

/-- The `aggregate(state)` entry point.  Here `connect = some e` means `psycopg2.connect` raised
(caught at lines 79–83: one error, early return without touching
`state["aggregates"]`). -/
def aggregate (connect : Option String) (f : Fail) (t : Table) (st : GraphState) :
    GraphState :=
  match connect with
  | some e => { st with errors := st.errors ++ ["aggregate connect: " ++ e] }
  | none =>
      let g := runGenericQueries f t Aggregates.empty st.errors
      let detected : Option String × List String :=
        match f.detect with
        | some e => (none, g.2 ++ ["detect_impact: " ++ e])
        | none => (detect_impact_column t.schemaCols (fun c => nonNullCountQ c t), g.2)
      match detected.1 with
      | some col =>
          let r4 := { g.1 with
            company_impact_field := some (some (canonicalImpactName col)) }
          let s := runImpactQueries f t col r4 detected.2
          { aggregates := some s.1, errors := s.2 }
      | none =>
          { aggregates := some { g.1 with
              company_impact_field := some none, avg_impact := some none },
            errors := detected.2 ++ ["no impact column detected"] }

/-! ### Closed form of `aggregate`

The result is characterised field by field: each metric's outcome depends only
on its own failure flag (plus, for the impact metrics, on the detected
column), and each failure contributes exactly its own error string. -/

/-- Produces `[tag + e]` when the query failed with `e`, else `[]`. -/
def errList (tag : String) : Option String → List String
  | some e => [tag ++ e]
  | none => []

/-- The impact column `aggregate` ends up with: `none` when the detection step
itself raised, otherwise the result of `_detect_impact_column`. -/
def detectedCol (f : Fail) (t : Table) : Option String :=
  match f.detect with
  | some _ => none
  | none => detect_impact_column t.schemaCols (fun c => nonNullCountQ c t)

/-- Field-by-field description of the final `results` dict. -/
def expectedAggregates (f : Fail) (t : Table) : Aggregates :=
  let base : Aggregates :=
    { total_articles := match f.total_articles with
        | some _ => none
        | none => some (totalArticlesQ t)
      top_spokesperson := match f.top_spokesperson with
        | some _ => none
        | none => topSpokespersonQ t
      monthly_counts := match f.monthly_counts with
        | some _ => none
        | none => some (monthlyCountsQ t)
      company_impact_field := none
      avg_impact := none
      avg_kpmg_impact := none
      max_impact := none
      impact_distribution := none }
  match detectedCol f t with
  | some col =>
      { base with
        company_impact_field := some (some (canonicalImpactName col))
        avg_impact := match f.avg_impact with
          | some _ => none
          | none => some (avgImpactQ col t)
        avg_kpmg_impact := match f.avg_impact with
          | some _ => none
          | none => if col = "kpmgtotalimpact" then some (avgImpactQ col t) else none
        max_impact := match f.max_impact with
          | some _ => none
          | none => maxImpactQ col t
        impact_distribution := match f.impact_distribution with
          | some _ => none
          | none => some (impactDistributionQ col t) }
  | none => { base with company_impact_field := some none, avg_impact := some none }

/-- The errors appended during one run, one entry per failed query, in program
order, plus the diagnostic of the no-impact-column branch. -/
def expectedErrors (f : Fail) (t : Table) : List String :=
  errList "aggregate total_articles: " f.total_articles ++
  errList "aggregate top_spokesperson: " f.top_spokesperson ++
  errList "aggregate monthly_counts: " f.monthly_counts ++
  errList "detect_impact: " f.detect ++
  match detectedCol f t with
  | some _ =>
      errList "aggregate avg_impact: " f.avg_impact ++
      errList "aggregate max_impact: " f.max_impact ++
      errList "aggregate impact_distribution: " f.impact_distribution
  | none => ["no impact column detected"]

/-! ## The dynamic-table variant `mockup/pg_aggregate_node.py`

Differences from the primary aggregator: the table name comes from
`state["table"] or os.getenv("TEST_TABLE") or "articles_test"` and is validated
against `[A-Za-z0-9_]+` before being interpolated; `psycopg2.connect` is not
wrapped in `try/except`, so a connection failure propagates (`Except.error`);
the impact column is hard-coded to `kpmgtotalimpact`; the bucket rows are
stored unfiltered (`{r[0]: int(r[1]) for r in rows}` keeps the `'null'` key);
the max-impact query has no `WHERE ... IS NOT NULL` clause. -/

structure MockFail where
  total_articles : Option String
  avg_kpmg_impact : Option String
  max_impact_row : Option String
  top_spokesperson : Option String
  impact_buckets : Option String
  monthly_counts : Option String
deriving DecidableEq

def noMockFail : MockFail := ⟨none, none, none, none, none, none⟩

/-- The `results` dict of the mockup `aggregate` (in `max_impact` the value
field is stored under the key `"kpmgtotalimpact"`). -/
structure MockAggregates where
  total_articles : Option Nat
  avg_kpmg_impact : Option (Option ℚ)
  max_impact : Option MaxImpact
  top_spokesperson : Option TopSpokes
  impact_distribution : Option (List (String × Nat))
  monthly_counts : Option (List MonthlyCount)
deriving DecidableEq

def MockAggregates.empty : MockAggregates := ⟨none, none, none, none, none, none⟩

structure MockState where
  table : Option String
  aggregates : Option MockAggregates
  errors : List String
deriving DecidableEq

/-- Python `a or b` on an optional string: `None` and `""` are falsy. -/
def orFalsy (a : Option String) (b : String) : String :=
  match a with
  | none => b
  | some s => if s = "" then b else s

/-- Selection `state.get("table") or os.getenv("TEST_TABLE") or "articles_test"`. -/
def pickTable (stTable envTable : Option String) : String :=
  orFalsy stTable (orFalsy envTable "articles_test")

/-- Membership in the regex character class `[A-Za-z0-9_]`. -/
def isWordChar (c : Char) : Bool :=
  (decide ('A' ≤ c) && decide (c ≤ 'Z')) || (decide ('a' ≤ c) && decide (c ≤ 'z')) ||
    (decide ('0' ≤ c) && decide (c ≤ '9')) || c == '_'

/-- Whether `re.fullmatch(r"[A-Za-z0-9_]+", table)` succeeds. -/
def validTableName (s : String) : Bool :=
  !s.isEmpty && s.toList.all isWordChar

/-- Comparison for `ORDER BY kpmgtotalimpact DESC NULLS LAST` over all rows (no `WHERE`). -/
def mockMaxLe (a b : Row) : Bool :=
  match a.impact "kpmgtotalimpact", b.impact "kpmgtotalimpact" with
  | some x, some y => decide (y ≤ x)
  | some _, none => true
  | none, some _ => false
  | none, none => true

/-- The mockup `max_impact_row` query: first row of the table sorted by
`kpmgtotalimpact DESC NULLS LAST` (so a row with a NULL impact can be picked
when no row has a value). -/
def mockMaxImpactQ (t : Table) : Option MaxImpact :=
  ((sortLe mockMaxLe t.rows).head?).map fun r =>
    ⟨r.articleid, r.impact "kpmgtotalimpact", r.issue, r.spokespersonname⟩

/-- The mockup `impact_buckets` result is stored without dropping the
`'null'` bucket. -/
def mockImpactDistributionQ (t : Table) : List (String × Nat) :=
  sqlBuckets "kpmgtotalimpact" t

/-- The mockup `aggregate(state)`.  `tables` maps a table name to its contents;
`env` is `os.getenv("TEST_TABLE")`; `connect = some e` means `psycopg2.connect`
raised — uncaught there, hence the `Except.error` result. -/
def mockupAggregate (env : Option String) (connect : Option String) (f : MockFail)
    (tables : String → Table) (st : MockState) : Except String MockState :=
  let table := pickTable st.table env
  if !validTableName table then
    Except.ok { st with errors := st.errors ++ ["invalid table name"] }
  else
    match connect with
    | some e => Except.error e
    | none =>
        let t := tables table
        let s1 : MockAggregates × List String :=
          match f.total_articles with
          | some e => (MockAggregates.empty, st.errors ++ ["aggregate total_articles: " ++ e])
          | none => ({ MockAggregates.empty with total_articles := some (totalArticlesQ t) },
              st.errors)
        let s2 : MockAggregates × List String :=
          match f.avg_kpmg_impact with
          | some e => (s1.1, s1.2 ++ ["aggregate avg_kpmg_impact: " ++ e])
          | none => ({ s1.1 with
              avg_kpmg_impact := some (avgImpactQ "kpmgtotalimpact" t) }, s1.2)
        let s3 : MockAggregates × List String :=
          match f.max_impact_row with
          | some e => (s2.1, s2.2 ++ ["aggregate max_impact_row: " ++ e])
          | none => ({ s2.1 with max_impact := mockMaxImpactQ t }, s2.2)
        let s4 : MockAggregates × List String :=
          match f.top_spokesperson with
          | some e => (s3.1, s3.2 ++ ["aggregate top_spokesperson: " ++ e])
          | none => ({ s3.1 with top_spokesperson := topSpokespersonQ t }, s3.2)
        let s5 : MockAggregates × List String :=
          match f.impact_buckets with
          | some e => (s4.1, s4.2 ++ ["aggregate impact_buckets: " ++ e])
          | none => ({ s4.1 with
              impact_distribution := some (mockImpactDistributionQ t) }, s4.2)
        let s6 : MockAggregates × List String :=
          match f.monthly_counts with
          | some e => (s5.1, s5.2 ++ ["aggregate monthly_counts: " ++ e])
          | none => ({ s5.1 with monthly_counts := some (monthlyCountsQ t) }, s5.2)
        Except.ok { st with aggregates := some s6.1, errors := s6.2 }

/-! ## Concrete fixtures used by witnesses and counterexamples -/

/-- An impact-value assignment populating exactly one column. -/
def mkImpact (col : String) (v : Option ℚ) : String → Option ℚ :=
  fun c => if c = col then v else none

def fixRow (i : Int) (m : Option String) (y : Option Int) (sp : Option String)
    (v : Option ℚ) : Row :=
  ⟨i, m, y, sp, none, mkImpact "kpmgtotalimpact" v⟩

/-- A small populated table with a `kpmgtotalimpact` column. -/
def wTable : Table :=
  ⟨["articleid", "month", "year", "spokespersonname", "kpmgtotalimpact"],
   [fixRow 1 (some "Jan") (some 2024) (some "Alice") (some 2),
    fixRow 2 (some "Feb") (some 2024) (some "Bob") (some 4),
    fixRow 3 none none none none]⟩

/-- A non-empty table whose schema has no impact-suffixed column. -/
def wTableNoImpact : Table :=
  ⟨["articleid", "month", "year"],
   [⟨1, some "Jan", some 2024, some "Alice", none, fun _ => none⟩]⟩

/-- A table whose only populated impact column is `pwctotalimpact`. -/
def wTablePwc : Table :=
  ⟨["pwctotalimpact"], [⟨1, none, none, none, none, mkImpact "pwctotalimpact" (some 5)⟩]⟩

/-- A one-row table whose `kpmgtotalimpact` value is NULL. -/
def tNullImpact : Table :=
  ⟨["kpmgtotalimpact"], [⟨7, none, none, none, none, fun _ => none⟩]⟩

def wSt : GraphState := ⟨none, []⟩

def wMockSt : MockState := ⟨some "articles_test", none, []⟩

/-- A run where only the `total_articles` query raises. -/
def wFail : Fail := ⟨some "boom", none, none, none, none, none, none⟩

/-- Projection: the `impact_distribution` entry of a mockup run's result. -/
def mockDistOf (r : Except String MockState) : Option (List (String × Nat)) :=
  match r with
  | Except.ok s => s.aggregates.bind MockAggregates.impact_distribution
  | Except.error _ => none

/-! # Theorems

First the generic facts about the stable sort, then the closed form of
`aggregate`, then one theorem per claim. -/

theorem mem_insertLe {α : Type} (le : α → α → Bool) (a x : α) (l : List α) :
    x ∈ insertLe le a l ↔ x = a ∨ x ∈ l := by
  induction l with
  | nil => simp [insertLe]
  | cons b l ih =>
      simp only [insertLe]
      split
      · simp
      · simp only [List.mem_cons, ih]
        tauto

theorem mem_sortLe {α : Type} (le : α → α → Bool) (x : α) (l : List α) :
    x ∈ sortLe le l ↔ x ∈ l := by
  induction l with
  | nil => simp [sortLe]
  | cons b l ih => simp [sortLe, mem_insertLe, ih]

theorem length_insertLe {α : Type} (le : α → α → Bool) (a : α) (l : List α) :
    (insertLe le a l).length = l.length + 1 := by
  induction l with
  | nil => simp [insertLe]
  | cons b l ih =>
      simp only [insertLe]
      split <;> simp [ih]

theorem length_sortLe {α : Type} (le : α → α → Bool) (l : List α) :
    (sortLe le l).length = l.length := by
  induction l with
  | nil => rfl
  | cons b l ih => simp [sortLe, length_insertLe, ih]

theorem pairwise_insertLe {α : Type} {le : α → α → Bool}
    (htot : ∀ a b, le a b = true ∨ le b a = true)
    (htrans : ∀ a b c, le a b = true → le b c = true → le a c = true)
    (a : α) {l : List α}
    (h : l.Pairwise (fun x y => le x y = true)) :
    (insertLe le a l).Pairwise (fun x y => le x y = true) := by
  induction l with
  | nil => simp [insertLe]
  | cons b l ih =>
      rcases h with - | ⟨hb, hl⟩
      simp only [insertLe]
      split
      · rename_i hab
        refine List.Pairwise.cons ?_ (List.Pairwise.cons hb hl)
        intro x hx
        rcases List.mem_cons.1 hx with rfl | hx
        · exact hab
        · exact htrans a b x hab (hb x hx)
      · rename_i hab
        have hba : le b a = true := by
          rcases htot a b with h1 | h1
          · exact absurd h1 hab
          · exact h1
        refine List.Pairwise.cons ?_ (ih hl)
        intro x hx
        rcases (mem_insertLe le a x l).1 hx with rfl | hx
        · exact hba
        · exact hb x hx

theorem pairwise_sortLe {α : Type} {le : α → α → Bool}
    (htot : ∀ a b, le a b = true ∨ le b a = true)
    (htrans : ∀ a b c, le a b = true → le b c = true → le a c = true)
    (l : List α) :
    (sortLe le l).Pairwise (fun x y => le x y = true) := by
  induction l with
  | nil => simp [sortLe]
  | cons b l ih => exact pairwise_insertLe htot htrans b ih

theorem sortLe_head_min {α : Type} {le : α → α → Bool}
    (htot : ∀ a b, le a b = true ∨ le b a = true)
    (htrans : ∀ a b c, le a b = true → le b c = true → le a c = true)
    {l : List α} {y : α} {ys : List α}
    (h : sortLe le l = y :: ys) {x : α} (hx : x ∈ l) : le y x = true := by
  have hmem : x ∈ y :: ys := by
    rw [← h]; exact (mem_sortLe le x l).2 hx
  have hpw := pairwise_sortLe htot htrans l
  rw [h] at hpw
  rcases List.mem_cons.1 hmem with rfl | hmem
  · rcases htot x x with h1 | h1 <;> exact h1
  · exact (List.pairwise_cons.1 hpw).1 x hmem

theorem sortLe_eq_of_pairwise {α : Type} {le : α → α → Bool} {l : List α}
    (h : l.Pairwise (fun x y => le x y = true)) : sortLe le l = l := by
  induction l with
  | nil => rfl
  | cons b l ih =>
      rcases h with - | ⟨hb, hl⟩
      simp only [sortLe, ih hl]
      cases l with
      | nil => rfl
      | cons c l => simp [insertLe, hb c (by simp)]

/-! ## Facts about the detection sort key -/

theorem detectLe_total : ∀ p q, detectLe p q = true ∨ detectLe q p = true := by
  intro p q
  simp only [detectLe, Bool.or_eq_true, Bool.and_eq_true, decide_eq_true_eq]
  omega

theorem detectLe_trans :
    ∀ p q r, detectLe p q = true → detectLe q r = true → detectLe p r = true := by
  intro p q r
  simp only [detectLe, Bool.or_eq_true, Bool.and_eq_true, decide_eq_true_eq]
  omega

/-- What a comparison success says about counts and priority indices. -/
theorem detectLe_spec {c c' : String} {n n' : Nat}
    (h : detectLe (c, n) (c', n') = true) :
    n' ≤ n ∧ (n' = n → prioIdx c ≤ prioIdx c') := by
  simp only [detectLe, detectKey, Bool.or_eq_true, Bool.and_eq_true,
    decide_eq_true_eq] at h
  constructor
  · rcases h with h | ⟨h, -⟩ <;> omega
  · intro hnn
    rcases h with h | ⟨-, h⟩
    · omega
    · exact h

theorem nonZeroOf_eq (cols : List String) (cnt : String → Nat) :
    nonZeroOf cols cnt =
      if ((countsOf cols cnt).filter fun p => decide (0 < p.2)).isEmpty then
        countsOf cols cnt
      else (countsOf cols cnt).filter fun p => decide (0 < p.2) := rfl

theorem mem_nonZeroOf {cols : List String} {cnt : String → Nat} {p : String × Nat}
    (hp : p ∈ nonZeroOf cols cnt) : p ∈ countsOf cols cnt := by
  rw [nonZeroOf_eq] at hp
  split at hp
  · exact hp
  · exact List.mem_of_mem_filter hp

/-! ## Facts about the candidate list -/

theorem foldl_candStep_eq_nil (cols : List String) :
    ∀ acc : List String,
      cols.foldl candStep acc = [] ↔
        acc = [] ∧ ∀ c ∈ cols, strEndsWith c "totalimpact" = false := by
  induction cols with
  | nil => simp
  | cons d cols ih =>
      intro acc
      rw [List.foldl_cons, ih]
      constructor
      · rintro ⟨hstep, hall⟩
        unfold candStep at hstep
        split at hstep
        · simp at hstep
        · rename_i hcond
          subst hstep
          have hd : strEndsWith d "totalimpact" = false := by
            simp only [List.contains_nil, Bool.not_false, Bool.and_true] at hcond
            exact Bool.eq_false_iff.2 hcond
          refine ⟨rfl, fun c hc => ?_⟩
          rcases List.mem_cons.1 hc with rfl | hc
          · exact hd
          · exact hall c hc
      · rintro ⟨rfl, hall⟩
        have hd : strEndsWith d "totalimpact" = false := hall d (by simp)
        refine ⟨?_, fun c hc => hall c (by simp [hc])⟩
        unfold candStep
        rw [hd]
        simp

theorem candidatesOf_eq_nil_iff (cols : List String) :
    candidatesOf cols = [] ↔ ∀ c ∈ cols, strEndsWith c "totalimpact" = false := by
  unfold candidatesOf
  rw [foldl_candStep_eq_nil]
  constructor
  · rintro ⟨-, h⟩
    exact h
  · intro h
    refine ⟨?_, h⟩
    rw [List.filter_eq_nil_iff]
    intro p hp
    simp only [decide_eq_true_eq]
    intro hpcols
    have hfalse := h p hpcols
    have hends : strEndsWith p "totalimpact" = true := by
      fin_cases hp <;> decide
    rw [hfalse] at hends
    cases hends

theorem prioIdx_le_999 (c : String) : prioIdx c ≤ 999 := by
  unfold prioIdx
  split
  · calc IMPACT_COLUMNS_PRIORITY.indexOf c ≤ IMPACT_COLUMNS_PRIORITY.length :=
        List.indexOf_le_length
      _ ≤ 999 := by decide
  · exact le_refl 999

theorem pairwise_prioIdx_filter (cols : List String) :
    (IMPACT_COLUMNS_PRIORITY.filter fun c => decide (c ∈ cols)).Pairwise
      (fun a b => prioIdx a ≤ prioIdx b) := by
  have hpw : IMPACT_COLUMNS_PRIORITY.Pairwise (fun a b => prioIdx a ≤ prioIdx b) := by
    decide
  exact hpw.sublist (List.filter_sublist _)

theorem pairwise_prioIdx_foldl :
    ∀ (cols acc : List String),
      (∀ c ∈ cols, c ∈ IMPACT_COLUMNS_PRIORITY → c ∈ acc) →
      acc.Pairwise (fun a b => prioIdx a ≤ prioIdx b) →
      (cols.foldl candStep acc).Pairwise (fun a b => prioIdx a ≤ prioIdx b) := by
  intro cols
  induction cols with
  | nil =>
      intro acc _ hpw
      simpa using hpw
  | cons d cols ih =>
      intro acc hmem hpw
      rw [List.foldl_cons]
      apply ih
      · intro c hc hcp
        have hacc : c ∈ acc := hmem c (by simp [hc]) hcp
        unfold candStep
        split
        · exact List.mem_append_left _ hacc
        · exact hacc
      · unfold candStep
        split
        · rename_i hcond
          have hdp : d ∉ IMPACT_COLUMNS_PRIORITY := by
            intro hdp
            have hdacc : d ∈ acc := hmem d (by simp) hdp
            have hcont : acc.contains d = true := List.elem_iff.2 hdacc
            rw [hcont] at hcond
            simp at hcond
          apply List.pairwise_append.2
          refine ⟨hpw, by simp, ?_⟩
          intro a ha b hb
          rcases List.mem_singleton.1 hb with rfl
          have h999 : prioIdx b = 999 := by
            unfold prioIdx
            rw [if_neg hdp]
          rw [h999]
          exact prioIdx_le_999 a
        · exact hpw

theorem pairwise_prioIdx_candidatesOf (cols : List String) :
    (candidatesOf cols).Pairwise (fun a b => prioIdx a ≤ prioIdx b) := by
  unfold candidatesOf
  apply pairwise_prioIdx_foldl
  · intro c hc hcp
    rw [List.mem_filter]
    exact ⟨hcp, by simp [hc]⟩
  · exact pairwise_prioIdx_filter cols

/-! ## C2 — selection by greatest non-null count, priority tie-break -/

/-- C2: whenever `_detect_impact_column` returns a column, that column is a
candidate with the greatest non-null count; when another candidate ties the
count and is in the four-entry priority list, the selected column is also a
priority column whose index is no later — so a strictly greater count always
wins and exact ties go to the earlier priority entry. -/
theorem detect_selects_greatest (cols : List String) (cnt : String → Nat) (c : String)
    (h : detect_impact_column cols cnt = some c) :
    c ∈ candidatesOf cols ∧
    (∀ c' ∈ candidatesOf cols, cnt c' ≤ cnt c) ∧
    (∀ c' ∈ candidatesOf cols, cnt c' = cnt c → c' ∈ IMPACT_COLUMNS_PRIORITY →
      c ∈ IMPACT_COLUMNS_PRIORITY ∧
      IMPACT_COLUMNS_PRIORITY.indexOf c ≤ IMPACT_COLUMNS_PRIORITY.indexOf c') := by
  unfold detect_impact_column at h
  by_cases hemp : (candidatesOf cols).isEmpty
  · rw [if_pos hemp] at h
    cases h
  · rw [if_neg hemp] at h
    cases hs : sortLe detectLe (nonZeroOf cols cnt) with
    | nil =>
        rw [hs] at h
        cases h
    | cons p ys =>
        rw [hs] at h
        simp only [List.head?_cons, Option.map_some', Option.some.injEq] at h
        have hpnz : p ∈ nonZeroOf cols cnt :=
          (mem_sortLe detectLe p _).1 (by rw [hs]; exact List.mem_cons_self p ys)
        obtain ⟨a, hacand, hpa⟩ := List.mem_map.1 (mem_nonZeroOf hpnz)
        have hpck : p = (c, cnt c) := by
          rw [← hpa] at h ⊢
          simp only at h
          rw [h]
        subst hpck
        have hccand : c ∈ candidatesOf cols := by
          have : a = c := by
            have := congrArg Prod.fst hpa
            simpa using this
          rwa [this] at hacand
        have hmemnz : ∀ c' ∈ candidatesOf cols, 0 < cnt c' →
            (c', cnt c') ∈ nonZeroOf cols cnt := by
          intro c' hc' hpos
          have hpair : (c', cnt c') ∈ countsOf cols cnt := by
            unfold countsOf
            exact List.mem_map_of_mem _ hc'
          rw [nonZeroOf_eq]
          split
          · exact hpair
          · exact List.mem_filter.2 ⟨hpair, by simpa using hpos⟩
        have hle_of_mem : ∀ q ∈ nonZeroOf cols cnt, detectLe (c, cnt c) q = true :=
          fun q hq => sortLe_head_min detectLe_total detectLe_trans hs hq
        by_cases hz : ((countsOf cols cnt).filter fun q => decide (0 < q.2)).isEmpty
        · -- all candidate counts are zero: nonZero = counts
          have hnz_eq : nonZeroOf cols cnt = countsOf cols cnt := by
            rw [nonZeroOf_eq, if_pos hz]
          refine ⟨hccand, ?_, ?_⟩
          · intro c' hc'
            have hpair : (c', cnt c') ∈ nonZeroOf cols cnt := by
              rw [hnz_eq]
              unfold countsOf
              exact List.mem_map_of_mem _ hc'
            exact (detectLe_spec (hle_of_mem _ hpair)).1
          · intro c' hc' htie hprio'
            have hpair : (c', cnt c') ∈ nonZeroOf cols cnt := by
              rw [hnz_eq]
              unfold countsOf
              exact List.mem_map_of_mem _ hc'
            have hidx := (detectLe_spec (hle_of_mem _ hpair)).2 htie
            unfold prioIdx at hidx
            rw [if_pos hprio'] at hidx
            by_cases hcp : c ∈ IMPACT_COLUMNS_PRIORITY
            · rw [if_pos hcp] at hidx
              exact ⟨hcp, hidx⟩
            · rw [if_neg hcp] at hidx
              have hlt : IMPACT_COLUMNS_PRIORITY.indexOf c' <
                  IMPACT_COLUMNS_PRIORITY.length := List.indexOf_lt_length.2 hprio'
              have : IMPACT_COLUMNS_PRIORITY.length = 4 := by decide
              omega
        · -- some candidate has a positive count, so the head count is positive
          have hcpos : 0 < cnt c := by
            have hp := hpnz
            rw [nonZeroOf_eq, if_neg hz] at hp
            have := (List.mem_filter.1 hp).2
            simpa using this
          refine ⟨hccand, ?_, ?_⟩
          · intro c' hc'
            by_cases hpos : 0 < cnt c'
            · exact (detectLe_spec (hle_of_mem _ (hmemnz c' hc' hpos))).1
            · omega
          · intro c' hc' htie hprio'
            have hpos : 0 < cnt c' := by omega
            have hidx := (detectLe_spec (hle_of_mem _ (hmemnz c' hc' hpos))).2 htie
            unfold prioIdx at hidx
            rw [if_pos hprio'] at hidx
            by_cases hcp : c ∈ IMPACT_COLUMNS_PRIORITY
            · rw [if_pos hcp] at hidx
              exact ⟨hcp, hidx⟩
            · rw [if_neg hcp] at hidx
              have hlt : IMPACT_COLUMNS_PRIORITY.indexOf c' <
                  IMPACT_COLUMNS_PRIORITY.length := List.indexOf_lt_length.2 hprio'
              have : IMPACT_COLUMNS_PRIORITY.length = 4 := by decide
              omega

theorem detect_selects_greatest_witness :
    detect_impact_column ["pwctotalimpact", "kpmgtotalimpact"] (fun _ => 2) =
      some "kpmgtotalimpact" ∧
    "kpmgtotalimpact" ∈ candidatesOf ["pwctotalimpact", "kpmgtotalimpact"] ∧
    IMPACT_COLUMNS_PRIORITY.indexOf "kpmgtotalimpact" ≤
      IMPACT_COLUMNS_PRIORITY.indexOf "pwctotalimpact" := by
  have hd : detect_impact_column ["pwctotalimpact", "kpmgtotalimpact"] (fun _ => 2) =
      some "kpmgtotalimpact" := by decide
  have h := detect_selects_greatest ["pwctotalimpact", "kpmgtotalimpact"] (fun _ => 2)
    "kpmgtotalimpact" hd
  exact ⟨hd, h.1, (h.2.2 "pwctotalimpact" (by decide) rfl (by decide)).2⟩

/-! ## C3 — detection is total on impact-suffixed schemas -/

/-- C3: `_detect_impact_column` returns no column exactly when the schema has
no column ending in `totalimpact`; in particular, when every candidate count is
zero (all candidates empty) it still returns the first candidate in priority
order rather than none. -/
theorem detect_none_only_without_impact_columns (cols : List String)
    (cnt : String → Nat) :
    (detect_impact_column cols cnt = none ↔
      ∀ c ∈ cols, strEndsWith c "totalimpact" = false) ∧
    ((∀ col, cnt col = 0) → detect_impact_column cols cnt = (candidatesOf cols).head?) := by
  constructor
  · constructor
    · intro h
      rw [← candidatesOf_eq_nil_iff]
      by_contra hne
      have hemp : (candidatesOf cols).isEmpty = false := by
        rw [List.isEmpty_eq_false]
        exact hne
      unfold detect_impact_column at h
      rw [hemp] at h
      simp only [Bool.false_eq_true, if_false, Option.map_eq_none'] at h
      rw [List.head?_eq_none_iff] at h
      have hlen := length_sortLe detectLe (nonZeroOf cols cnt)
      rw [h] at hlen
      have hnzlen : (nonZeroOf cols cnt).length ≠ 0 := by
        rw [nonZeroOf_eq]
        unfold countsOf
        split
        · rename_i hz
          simp only [List.length_map]
          intro hc
          exact hne (List.length_eq_zero.1 hc)
        · rename_i hz
          intro hc
          exact hz (List.isEmpty_iff.2 (List.length_eq_zero.1 hc))
      exact hnzlen hlen.symm
    · intro h
      unfold detect_impact_column
      rw [(candidatesOf_eq_nil_iff cols).2 h]
      rfl
  · intro hz
    unfold detect_impact_column
    by_cases hemp : (candidatesOf cols).isEmpty
    · rw [if_pos hemp]
      rw [List.isEmpty_iff] at hemp
      rw [hemp]
      rfl
    · rw [if_neg hemp]
      have hfilter : ((countsOf cols cnt).filter fun p => decide (0 < p.2)) = [] := by
        rw [List.filter_eq_nil_iff]
        intro p hp
        obtain ⟨a, -, rfl⟩ := List.mem_map.1 hp
        simp [hz a]
      have hnz_eq : nonZeroOf cols cnt = countsOf cols cnt := by
        rw [nonZeroOf_eq, hfilter]
        rfl
      have hpw : (countsOf cols cnt).Pairwise (fun p q => detectLe p q = true) := by
        unfold countsOf
        rw [List.pairwise_map]
        refine List.Pairwise.imp ?_ (pairwise_prioIdx_candidatesOf cols)
        intro a b hab
        simp only [detectLe, detectKey, hz, Bool.or_eq_true, Bool.and_eq_true,
          decide_eq_true_eq]
        refine Or.inr ⟨?_, hab⟩
        trivial
      rw [hnz_eq, sortLe_eq_of_pairwise hpw]
      unfold countsOf
      rw [List.head?_map, Option.map_map]
      cases (candidatesOf cols).head? <;> rfl

theorem detect_none_only_without_impact_columns_witness :
    detect_impact_column ["eytotalimpact", "month"] (fun _ => 0) = some "eytotalimpact" ∧
    detect_impact_column ["month", "year"] (fun _ => 5) = none :=
  ⟨by
    have h := (detect_none_only_without_impact_columns ["eytotalimpact", "month"]
      (fun _ => 0)).2 (fun _ => rfl)
    rw [h]
    decide,
   (detect_none_only_without_impact_columns ["month", "year"] (fun _ => 5)).1.2
    (by decide)⟩

/-! ## Closed form of `aggregate` -/

theorem runGenericQueries_eq (f : Fail) (t : Table) (r : Aggregates)
    (errs : List String) :
    runGenericQueries f t r errs =
      ({ r with
          total_articles := match f.total_articles with
            | some _ => r.total_articles
            | none => some (totalArticlesQ t)
          top_spokesperson := match f.top_spokesperson with
            | some _ => r.top_spokesperson
            | none => topSpokespersonQ t
          monthly_counts := match f.monthly_counts with
            | some _ => r.monthly_counts
            | none => some (monthlyCountsQ t) },
        errs ++ errList "aggregate total_articles: " f.total_articles ++
          errList "aggregate top_spokesperson: " f.top_spokesperson ++
          errList "aggregate monthly_counts: " f.monthly_counts) := by
  rcases f with ⟨f1, f2, f3, f4, f5, f6, f7⟩
  cases f1 <;> cases f2 <;> cases f3 <;> simp [runGenericQueries, errList]

theorem runImpactQueries_eq (f : Fail) (t : Table) (col : String) (r : Aggregates)
    (errs : List String) :
    runImpactQueries f t col r errs =
      ({ r with
          avg_impact := match f.avg_impact with
            | some _ => r.avg_impact
            | none => some (avgImpactQ col t)
          avg_kpmg_impact := match f.avg_impact with
            | some _ => r.avg_kpmg_impact
            | none =>
                if col = "kpmgtotalimpact" then some (avgImpactQ col t)
                else r.avg_kpmg_impact
          max_impact := match f.max_impact with
            | some _ => r.max_impact
            | none => maxImpactQ col t
          impact_distribution := match f.impact_distribution with
            | some _ => r.impact_distribution
            | none => some (impactDistributionQ col t) },
        errs ++ errList "aggregate avg_impact: " f.avg_impact ++
          errList "aggregate max_impact: " f.max_impact ++
          errList "aggregate impact_distribution: " f.impact_distribution) := by
  rcases f with ⟨f1, f2, f3, f4, f5, f6, f7⟩
  cases f5 <;> cases f6 <;> cases f7 <;>
    simp [runImpactQueries, errList] <;>
    split <;> simp

/-- Closed form of `aggregate` with a working connection: each metric field of
the result depends only on that metric's own failure, and the error log grows
by exactly one entry per failure. -/
theorem aggregate_closed_form (f : Fail) (t : Table) (st : GraphState) :
    aggregate none f t st =
      { aggregates := some (expectedAggregates f t),
        errors := st.errors ++ expectedErrors f t } := by
  have hg := runGenericQueries_eq f t Aggregates.empty st.errors
  cases hd : f.detect with
  | some e =>
      simp only [aggregate, hd, hg]
      have hdc : detectedCol f t = none := by simp [detectedCol, hd]
      simp [expectedAggregates, expectedErrors, hdc, hd, Aggregates.empty, errList]
  | none =>
      cases hcol : detect_impact_column t.schemaCols (fun c => nonNullCountQ c t) with
      | some col =>
          have hdc : detectedCol f t = some col := by simp [detectedCol, hd, hcol]
          simp only [aggregate, hd, hg, hcol, runImpactQueries_eq]
          simp [expectedAggregates, expectedErrors, hdc, hd, Aggregates.empty, errList]
      | none =>
          have hdc : detectedCol f t = none := by simp [detectedCol, hd, hcol]
          simp only [aggregate, hd, hg, hcol]
          simp [expectedAggregates, expectedErrors, hdc, hd, Aggregates.empty, errList]

/-! ## C5 — histogram bucket boundaries -/

/-- C5 (counterexample to the claim as stated): the claim describes the first
bucket as the half-open interval `[0, 1)`, but the `CASE WHEN x < 1` branch
also assigns every negative value to bucket `0_1`, so the first bucket is
really `(-inf, 1)`. -/
theorem bucket_first_interval_counterexample :
    bucketOf (some (-1)) = "0_1" ∧ ¬((0 : ℚ) ≤ -1) := by
  constructor
  · decide
  · decide

/-- C5 (amended): a value exactly equal to 1, 3 or 6 falls into the upper
bucket (`1_3`, `3_6`, `6_10` respectively), never the lower one; the four
buckets are `(-inf,1)`, `[1,3)`, `[3,6)`, `[6,inf)` — which coincide with
`[0,1)`, `[1,3)`, `[3,6)`, `[6,inf)` on nonnegative values. -/
theorem bucket_halfopen_boundaries :
    bucketOf (some 1) = "1_3" ∧ bucketOf (some 3) = "3_6" ∧ bucketOf (some 6) = "6_10" ∧
    (∀ x : ℚ,
      (bucketOf (some x) = "0_1" ↔ x < 1) ∧
      (bucketOf (some x) = "1_3" ↔ 1 ≤ x ∧ x < 3) ∧
      (bucketOf (some x) = "3_6" ↔ 3 ≤ x ∧ x < 6) ∧
      (bucketOf (some x) = "6_10" ↔ 6 ≤ x)) := by
  refine ⟨by decide, by decide, by decide, ?_⟩
  intro x
  by_cases h1 : x < 1
  · have e : bucketOf (some x) = "0_1" := by simp [bucketOf, h1]
    rw [e]
    exact ⟨iff_of_true rfl h1,
      iff_of_false (by decide) (fun h => absurd h1 (by push_neg; linarith [h.1])),
      iff_of_false (by decide) (fun h => absurd h1 (by push_neg; linarith [h.1])),
      iff_of_false (by decide) (fun h => absurd h1 (by push_neg; linarith))⟩
  · by_cases h3 : x < 3
    · have e : bucketOf (some x) = "1_3" := by simp [bucketOf, h1, h3]
      rw [e]
      exact ⟨iff_of_false (by decide) (fun h => absurd h h1),
        iff_of_true rfl ⟨le_of_not_lt h1, h3⟩,
        iff_of_false (by decide) (fun h => absurd h3 (by push_neg; linarith [h.1])),
        iff_of_false (by decide) (fun h => absurd h3 (by push_neg; linarith))⟩
    · by_cases h6 : x < 6
      · have e : bucketOf (some x) = "3_6" := by simp [bucketOf, h1, h3, h6]
        rw [e]
        exact ⟨iff_of_false (by decide) (fun h => absurd h h1),
          iff_of_false (by decide) (fun h => absurd h.2 h3),
          iff_of_true rfl ⟨le_of_not_lt h3, h6⟩,
          iff_of_false (by decide) (fun h => absurd h6 (by push_neg; linarith))⟩
      · have e : bucketOf (some x) = "6_10" := by simp [bucketOf, h1, h3, h6]
        rw [e]
        exact ⟨iff_of_false (by decide) (fun h => absurd h h1),
          iff_of_false (by decide) (fun h => absurd h.2 h3),
          iff_of_false (by decide) (fun h => absurd h.2 h6),
          iff_of_true rfl (le_of_not_lt h6)⟩

/-! ## C8 — total connectivity failure -/

/-- C8: when the connection cannot be established, the primary aggregator
records exactly one fatal diagnostic, leaves `aggregates` untouched (no
metrics are computed), and returns; the mockup variant, whose `connect` call
is not wrapped, propagates the failure as a hard error. -/
theorem connect_failure_fatal (e : String) (f : Fail) (t : Table) (st : GraphState)
    (env : Option String) (mf : MockFail) (tables : String → Table) (mst : MockState)
    (hvalid : validTableName (pickTable mst.table env) = true) :
    aggregate (some e) f t st =
      { st with errors := st.errors ++ ["aggregate connect: " ++ e] } ∧
    mockupAggregate env (some e) mf tables mst = Except.error e := by
  constructor
  · rfl
  · simp [mockupAggregate, hvalid]

theorem connect_failure_fatal_witness :
    validTableName (pickTable wMockSt.table none) = true ∧
    aggregate (some "down") noFail wTable wSt =
      { wSt with errors := wSt.errors ++ ["aggregate connect: " ++ "down"] } ∧
    mockupAggregate none (some "down") noMockFail (fun _ => wTable) wMockSt =
      Except.error "down" :=
  ⟨by decide,
   (connect_failure_fatal "down" noFail wTable wSt none noMockFail (fun _ => wTable)
     wMockSt (by decide)).1,
   (connect_failure_fatal "down" noFail wTable wSt none noMockFail (fun _ => wTable)
     wMockSt (by decide)).2⟩

/-! ## C9 — table-name validation in the dynamic-table variant -/

/-- C9: the mockup variant validates the effective table name against the
character class of `[A-Za-z0-9_]+` before building any SQL; a name containing
any other character yields the error `invalid table name` and an immediate
return whose result is independent of the connection and of the database
contents (no connection is opened, no query runs). -/
theorem mockup_invalid_table_name (tbl : String) (mst : MockState)
    (htbl : mst.table = some tbl) (hne : tbl ≠ "")
    (hbad : ∃ ch ∈ tbl.toList, isWordChar ch = false) :
    ∀ (env connect : Option String) (f : MockFail) (tables : String → Table),
      mockupAggregate env connect f tables mst =
        Except.ok { mst with errors := mst.errors ++ ["invalid table name"] } := by
  intro env connect f tables
  have hpick : pickTable mst.table env = tbl := by
    simp [pickTable, orFalsy, htbl, hne]
  have hall : tbl.toList.all isWordChar = false := by
    rcases hbad with ⟨ch, hch, hw⟩
    rcases hAll : tbl.toList.all isWordChar with - | -
    · rfl
    · exact absurd ((List.all_eq_true.1 hAll) ch hch) (by simp [hw])
  have hvalid : validTableName tbl = false := by
    unfold validTableName
    rw [hall, Bool.and_false]
  simp [mockupAggregate, hpick, hvalid]

theorem mockup_invalid_table_name_witness :
    (⟨some "users; DROP", none, []⟩ : MockState).table = some "users; DROP" ∧
    mockupAggregate none none noMockFail (fun _ => wTable)
        ⟨some "users; DROP", none, []⟩ =
      Except.ok ⟨some "users; DROP", none, ["invalid table name"]⟩ :=
  ⟨rfl,
   mockup_invalid_table_name "users; DROP" ⟨some "users; DROP", none, []⟩ rfl
     (by decide) (by decide) none none noMockFail (fun _ => wTable)⟩

/-! ## C10 — the undocumented extra key avg_kpmg_impact -/

/-- C10: when the selected impact column is `kpmgtotalimpact` and the average
query succeeds, the result carries the extra key `avg_kpmg_impact` with the
same value as `avg_impact`; for any other selected column the key is absent. -/
theorem avg_kpmg_extra_key (f : Fail) (t : Table) (st : GraphState) (col : String)
    (hcol : detectedCol f t = some col) (havg : f.avg_impact = none) :
    ((aggregate none f t st).aggregates.map Aggregates.avg_kpmg_impact) =
      some (if col = "kpmgtotalimpact" then some (avgImpactQ col t) else none) ∧
    (col = "kpmgtotalimpact" →
      ((aggregate none f t st).aggregates.map Aggregates.avg_kpmg_impact) =
        ((aggregate none f t st).aggregates.map Aggregates.avg_impact)) := by
  rw [aggregate_closed_form]
  constructor
  · simp [expectedAggregates, hcol, havg]
  · intro hk
    simp [expectedAggregates, hcol, havg, hk]

theorem avg_kpmg_extra_key_witness :
    detectedCol noFail wTable = some "kpmgtotalimpact" ∧
    detectedCol noFail wTablePwc = some "pwctotalimpact" ∧
    ((aggregate none noFail wTable wSt).aggregates.map Aggregates.avg_kpmg_impact) =
      some (some (avgImpactQ "kpmgtotalimpact" wTable)) ∧
    ((aggregate none noFail wTablePwc wSt).aggregates.map Aggregates.avg_kpmg_impact) =
      some none := by
  have hdet1 : detectedCol noFail wTable = some "kpmgtotalimpact" := by decide
  have hdet2 : detectedCol noFail wTablePwc = some "pwctotalimpact" := by decide
  have h1 := avg_kpmg_extra_key noFail wTable wSt "kpmgtotalimpact" hdet1 rfl
  have h2 := avg_kpmg_extra_key noFail wTablePwc wSt "pwctotalimpact" hdet2 rfl
  refine ⟨hdet1, hdet2, ?_, ?_⟩
  · have hx := h1.1
    rw [if_pos rfl] at hx
    exact hx
  · have hx := h2.1
    rw [if_neg (by decide)] at hx
    exact hx

/-! ## C6 — monthly counts are chronologically sorted -/

theorem monthlyLe_total : ∀ a b, monthlyLe a b = true ∨ monthlyLe b a = true := by
  intro a b
  rcases a with ⟨⟨ma, ya⟩, ca⟩
  rcases b with ⟨⟨mb, yb⟩, cb⟩
  cases ya <;> cases yb <;>
    simp [monthlyLe, yearLt] <;>
    omega

theorem monthlyLe_trans :
    ∀ a b c, monthlyLe a b = true → monthlyLe b c = true → monthlyLe a c = true := by
  intro a b c
  rcases a with ⟨⟨ma, ya⟩, ca⟩
  rcases b with ⟨⟨mb, yb⟩, cb⟩
  rcases c with ⟨⟨mc, yc⟩, cc⟩
  cases ya <;> cases yb <;> cases yc <;>
    simp [monthlyLe, yearLt] <;>
    omega

/-- C6: the `monthly_counts` sequence is sorted by year ascending (NULL years
last), and within equal years by the calendar-month index of the fixed
`Jan`→1 … `Dec`→12 mapping with unrecognized labels mapped to 13 — whatever
order the rows of the table are in. -/
theorem monthly_counts_sorted (t : Table) :
    (monthlyCountsQ t).Pairwise (fun a b =>
      yearLt a.year b.year = true ∨
        (a.year = b.year ∧ monthIndex a.month ≤ monthIndex b.month)) := by
  unfold monthlyCountsQ
  rw [List.pairwise_map]
  refine List.Pairwise.imp ?_ (pairwise_sortLe monthlyLe_total monthlyLe_trans _)
  intro a b hab
  simp only [monthlyLe, Bool.or_eq_true, Bool.and_eq_true, decide_eq_true_eq] at hab
  rcases hab with h | ⟨h1, h2⟩
  · exact Or.inl h
  · exact Or.inr ⟨h1, h2⟩

/-! ## C7 — behaviour when the table has no impact column -/

/-- C7: on a non-empty table with no impact-suffixed column and all queries
succeeding, `aggregate` sets `company_impact_field` and `avg_impact` to
explicit nulls, appends exactly the single diagnostic
`no impact column detected`, and still reports the true row count. -/
theorem no_impact_column_outcome (t : Table) (st : GraphState)
    (_hrows : t.rows ≠ [])
    (hcols : ∀ c ∈ t.schemaCols, strEndsWith c "totalimpact" = false) :
    ((aggregate none noFail t st).aggregates.map Aggregates.company_impact_field) =
      some (some none) ∧
    ((aggregate none noFail t st).aggregates.map Aggregates.avg_impact) =
      some (some none) ∧
    ((aggregate none noFail t st).aggregates.map Aggregates.total_articles) =
      some (some t.rows.length) ∧
    (aggregate none noFail t st).errors = st.errors ++ ["no impact column detected"] := by
  have hcand : candidatesOf t.schemaCols = [] := (candidatesOf_eq_nil_iff _).2 hcols
  have hdet : detect_impact_column t.schemaCols (fun c => nonNullCountQ c t) = none := by
    unfold detect_impact_column
    rw [hcand]
    rfl
  have hdc : detectedCol noFail t = none := by
    simp [detectedCol, noFail, hdet]
  rw [aggregate_closed_form]
  refine ⟨?_, ?_, ?_, ?_⟩ <;>
    · simp only [expectedAggregates, expectedErrors, hdc]
      simp [noFail, errList, totalArticlesQ]

theorem no_impact_column_outcome_witness :
    wTableNoImpact.rows ≠ [] ∧
    (∀ c ∈ wTableNoImpact.schemaCols, strEndsWith c "totalimpact" = false) ∧
    (aggregate none noFail wTableNoImpact wSt).errors =
      wSt.errors ++ ["no impact column detected"] ∧
    ((aggregate none noFail wTableNoImpact wSt).aggregates.map
      Aggregates.total_articles) = some (some wTableNoImpact.rows.length) :=
  ⟨by simp [wTableNoImpact], by decide,
   (no_impact_column_outcome wTableNoImpact wSt (by simp [wTableNoImpact])
     (by decide)).2.2.2,
   (no_impact_column_outcome wTableNoImpact wSt (by simp [wTableNoImpact])
     (by decide)).2.2.1⟩

/-! ## C4 — the distribution sums to the non-null count -/

theorem sum_filter_pos (g : String → Nat) :
    ∀ l : List String,
      (((l.filter fun b => decide (0 < g b)).map g).sum) = (l.map g).sum := by
  intro l
  induction l with
  | nil => rfl
  | cons b l ih =>
      by_cases h : 0 < g b
      · simp [List.filter_cons, h, ih]
      · have h0 : g b = 0 := by omega
        simp [List.filter_cons, h, ih, h0]

theorem four_bucket_count (l : List String) (hl : ∀ b ∈ l, b ∈ ALL_BUCKETS) :
    l.count "0_1" + l.count "1_3" + l.count "3_6" + l.count "6_10" =
      l.countP fun b => !(b == "null") := by
  induction l with
  | nil => rfl
  | cons b l ih =>
      have hb : b ∈ ALL_BUCKETS := hl b (by simp)
      have ihl := ih (fun x hx => hl x (by simp [hx]))
      fin_cases hb <;>
        simp [List.count_cons, List.countP_cons, ihl] <;> omega

theorem bucketOf_mem_all (v : Option ℚ) : bucketOf v ∈ ALL_BUCKETS := by
  rcases v with - | x
  · simp [bucketOf, ALL_BUCKETS]
  · simp only [bucketOf, ALL_BUCKETS]
    split_ifs <;> simp

theorem countP_notnull_eq_nonNull (col : String) (t : Table) :
    ((t.rows.map fun r => bucketOf (r.impact col)).countP fun b => !(b == "null")) =
      nonNullCountQ col t := by
  rw [List.countP_map]
  unfold nonNullCountQ
  rw [← List.countP_eq_length_filter]
  apply List.countP_congr
  intro r _
  rcases hv : r.impact col with - | x
  · simp [Function.comp, bucketOf, hv]
  · simp only [Function.comp, hv, Option.isSome_some, bucketOf]
    split_ifs <;> simp

/-- C4 (amended): in the primary aggregator, whenever an impact column is
selected and the distribution query succeeds, the recorded
`impact_distribution` has no `null` key and its values sum to exactly the
number of rows whose impact value is non-null.  (The mockup variant stores the
bucket rows unfiltered, so there the claim fails — see the counterexample.) -/
theorem impact_distribution_sums_nonnull (f : Fail) (t : Table) (st : GraphState)
    (col : String) (hcol : detectedCol f t = some col)
    (hdist : f.impact_distribution = none) :
    ((aggregate none f t st).aggregates.map Aggregates.impact_distribution) =
      some (some (impactDistributionQ col t)) ∧
    ((impactDistributionQ col t).map Prod.snd).sum = nonNullCountQ col t ∧
    "null" ∉ (impactDistributionQ col t).map Prod.fst := by
  refine ⟨?_, ?_, ?_⟩
  · rw [aggregate_closed_form]
    simp [expectedAggregates, hcol, hdist]
  · have h1 : impactDistributionQ col t =
        ((ALL_BUCKETS.filter fun b => decide (0 < bucketCount col t b)).filter
          fun b => decide (b ≠ "null")).map
          fun b => (b, bucketCount col t b) := by
      unfold impactDistributionQ sqlBuckets
      rw [List.filter_map]
      congr 1
    have hcomm : ((ALL_BUCKETS.filter fun b => decide (0 < bucketCount col t b)).filter
          fun b => decide (b ≠ "null")) =
        ((ALL_BUCKETS.filter fun b => decide (b ≠ "null")).filter
          fun b => decide (0 < bucketCount col t b)) := by
      rw [List.filter_filter, List.filter_filter]
      exact List.filter_congr fun b _ => Bool.and_comm _ _
    have h3 : (ALL_BUCKETS.filter fun b => decide (b ≠ "null")) =
        ["0_1", "1_3", "3_6", "6_10"] := by decide
    rw [h1, hcomm, h3, List.map_map]
    have h2 : Prod.snd ∘ (fun b => (b, bucketCount col t b)) =
        fun b => bucketCount col t b := rfl
    rw [h2, sum_filter_pos]
    have hfour := four_bucket_count (t.rows.map fun r => bucketOf (r.impact col))
      (fun b hb => by
        obtain ⟨r, -, rfl⟩ := List.mem_map.1 hb
        exact bucketOf_mem_all _)
    have hnn := countP_notnull_eq_nonNull col t
    simp only [List.map_cons, List.map_nil, List.sum_cons, List.sum_nil]
    unfold bucketCount
    omega
  · intro hmem
    obtain ⟨p, hp, hfst⟩ := List.mem_map.1 hmem
    have hne := (List.mem_filter.1 hp).2
    rw [hfst] at hne
    simp at hne

theorem impact_distribution_sums_nonnull_witness :
    detectedCol noFail wTable = some "kpmgtotalimpact" ∧
    ((impactDistributionQ "kpmgtotalimpact" wTable).map Prod.snd).sum =
      nonNullCountQ "kpmgtotalimpact" wTable ∧
    "null" ∉ (impactDistributionQ "kpmgtotalimpact" wTable).map Prod.fst := by
  have hdc : detectedCol noFail wTable = some "kpmgtotalimpact" := by decide
  have h := impact_distribution_sums_nonnull noFail wTable wSt "kpmgtotalimpact" hdc rfl
  exact ⟨hdc, h.2.1, h.2.2⟩

/-- C4 (counterexample to the claim as stated): the claim's sources include the
mockup variant, which stores the bucket rows unfiltered; on a one-row table
whose impact value is NULL, the externally stored `impact_distribution` is
`[("null", 1)]` — it contains a `null` key and its values sum to 1 while the
non-null impact count is 0. -/
theorem mockup_distribution_null_counterexample :
    mockDistOf (mockupAggregate none none noMockFail (fun _ => tNullImpact) wMockSt) =
      some [("null", 1)] ∧
    "null" ∈ (mockImpactDistributionQ tNullImpact).map Prod.fst ∧
    ((mockImpactDistributionQ tNullImpact).map Prod.snd).sum ≠
      nonNullCountQ "kpmgtotalimpact" tNullImpact := by
  refine ⟨by decide, by decide, by decide⟩

/-! ## C1 — per-metric failures are isolated and logged -/

/-- C1: with a working connection, `aggregate` always returns a state whose
`aggregates` is present; each failing metric query contributes exactly its own
error entry to the error list, and each succeeding metric is recorded with the
value of its own query, no matter which other metrics failed — so a failure in
any single metric never prevents the others and never escapes `aggregate`. -/
theorem aggregate_metric_isolation (f : Fail) (t : Table) (st : GraphState) :
    (aggregate none f t st).aggregates = some (expectedAggregates f t) ∧
    (aggregate none f t st).errors = st.errors ++ expectedErrors f t ∧
    (∀ e, f.total_articles = some e →
      ("aggregate total_articles: " ++ e) ∈ (aggregate none f t st).errors) ∧
    (∀ e, f.top_spokesperson = some e →
      ("aggregate top_spokesperson: " ++ e) ∈ (aggregate none f t st).errors) ∧
    (∀ e, f.monthly_counts = some e →
      ("aggregate monthly_counts: " ++ e) ∈ (aggregate none f t st).errors) ∧
    (∀ col, detectedCol f t = some col →
      (∀ e, f.avg_impact = some e →
        ("aggregate avg_impact: " ++ e) ∈ (aggregate none f t st).errors) ∧
      (∀ e, f.max_impact = some e →
        ("aggregate max_impact: " ++ e) ∈ (aggregate none f t st).errors) ∧
      (∀ e, f.impact_distribution = some e →
        ("aggregate impact_distribution: " ++ e) ∈ (aggregate none f t st).errors)) ∧
    (f.total_articles = none →
      (expectedAggregates f t).total_articles = some (totalArticlesQ t)) ∧
    (f.top_spokesperson = none →
      (expectedAggregates f t).top_spokesperson = topSpokespersonQ t) ∧
    (f.monthly_counts = none →
      (expectedAggregates f t).monthly_counts = some (monthlyCountsQ t)) ∧
    (∀ col, detectedCol f t = some col →
      (f.avg_impact = none →
        (expectedAggregates f t).avg_impact = some (avgImpactQ col t)) ∧
      (f.max_impact = none →
        (expectedAggregates f t).max_impact = maxImpactQ col t) ∧
      (f.impact_distribution = none →
        (expectedAggregates f t).impact_distribution =
          some (impactDistributionQ col t))) := by
  have hcf := aggregate_closed_form f t st
  refine ⟨by rw [hcf], by rw [hcf], ?_, ?_, ?_, ?_, ?_, ?_, ?_, ?_⟩
  · intro e he
    rw [hcf]
    simp [expectedErrors, errList, he]
  · intro e he
    rw [hcf]
    simp [expectedErrors, errList, he]
  · intro e he
    rw [hcf]
    simp [expectedErrors, errList, he]
  · intro col hcol
    refine ⟨?_, ?_, ?_⟩ <;> intro e he <;> rw [hcf] <;>
      simp [expectedErrors, errList, he, hcol]
  · intro h
    cases hdc : detectedCol f t <;> simp [expectedAggregates, hdc, h]
  · intro h
    cases hdc : detectedCol f t <;> simp [expectedAggregates, hdc, h]
  · intro h
    cases hdc : detectedCol f t <;> simp [expectedAggregates, hdc, h]
  · intro col hcol
    refine ⟨?_, ?_, ?_⟩ <;> intro h <;> simp [expectedAggregates, hcol, h]

theorem aggregate_metric_isolation_witness :
    wFail.total_articles = some "boom" ∧
    ("aggregate total_articles: " ++ "boom") ∈ (aggregate none wFail wTable wSt).errors ∧
    (expectedAggregates wFail wTable).monthly_counts = some (monthlyCountsQ wTable) ∧
    (expectedAggregates wFail wTable).avg_impact =
      some (avgImpactQ "kpmgtotalimpact" wTable) := by
  have h := aggregate_metric_isolation wFail wTable wSt
  have hdc : detectedCol wFail wTable = some "kpmgtotalimpact" := by decide
  exact ⟨rfl, h.2.2.1 "boom" rfl, h.2.2.2.2.2.2.2.2.1 rfl,
    (h.2.2.2.2.2.2.2.2.2 "kpmgtotalimpact" hdc).1 rfl⟩

end CsvAgent
